import Mathlib

set_option maxRecDepth 8000

/-!
Shallow embedding of the Runtime Bridge & Asynchronous Request Engine of the
ClaudeCiv6 repository (src/ClaudeAPI.cpp, src/HavokScriptIntegration.cpp).

The network exchange (`HttpPost`) is abstracted as an oracle string: the body
the service would return for the request.  Everything else — JSON parsing in
the style of `nlohmann::json`, response extraction, the turn cache, the async
request state machine, the pcall-hook registration logic and the Lua entry
points — is translated from the C++ source.
-/

-- ============================================================================
-- JSON model (the subset of nlohmann::json behaviour the source relies on)
-- ============================================================================

/-- Whitespace characters: the set used both by `nlohmann::json`'s lexer and by
`find_first_not_of(" \t\n\r")` in `ExtractJsonFromResponse`. -/
def isWsChar (c : Char) : Bool :=
  c == ' ' || c == '\t' || c == '\n' || c == '\r'

/-- JSON values as produced by `nlohmann::json::parse`.  Objects keep their
fields sorted by key with last-wins duplicate handling, matching the
`std::map`-backed default `nlohmann::json`.  A number keeps its integer part
(toward-zero, matching `get<int>` truncation) plus the raw fraction/exponent
suffix text. -/
inductive Json where
  | null : Json
  | bool (b : Bool) : Json
  | num (i : Int) (raw : String) : Json
  | str (s : String) : Json
  | arr (elems : List Json) : Json
  | obj (fields : List (String × Json)) : Json

/-- Byte-wise lexicographic comparison of char lists, as `std::less<std::string>`. -/
def charListLtB : List Char → List Char → Bool
  | [], [] => false
  | [], _ :: _ => true
  | _ :: _, [] => false
  | a :: as, b :: bs =>
    if a.toNat < b.toNat then true
    else if b.toNat < a.toNat then false
    else charListLtB as bs

/-- `std::less<std::string>` on strings. -/
def strLtB (a b : String) : Bool := charListLtB a.data b.data

/-- Insert a key/value pair into a key-sorted field list, overwriting an
existing binding for the same key (`std::map::operator[]` assignment). -/
def objInsert (k : String) (v : Json) : List (String × Json) → List (String × Json)
  | [] => [(k, v)]
  | (k', v') :: t =>
    if k == k' then (k, v) :: t
    else if strLtB k k' then (k, v) :: (k', v') :: t
    else (k', v') :: objInsert k v t

/-- Skip JSON whitespace. -/
def skipWs : List Char → List Char
  | [] => []
  | c :: cs => if isWsChar c then skipWs cs else c :: cs

/-- Value of a hexadecimal digit. -/
def hexVal? (c : Char) : Option Nat :=
  if '0' ≤ c ∧ c ≤ '9' then some (c.toNat - '0'.toNat)
  else if 'a' ≤ c ∧ c ≤ 'f' then some (c.toNat - 'a'.toNat + 10)
  else if 'A' ≤ c ∧ c ≤ 'F' then some (c.toNat - 'A'.toNat + 10)
  else none

/-- Parse the body of a JSON string literal (the opening quote already
consumed); returns the decoded characters and the input after the closing
quote.  Raw control characters are rejected, as in `nlohmann::json`. -/
def parseStringBody : List Char → Option (List Char × List Char)
  | [] => none
  | '"' :: rest => some ([], rest)
  | '\\' :: '"' :: rest => (parseStringBody rest).map (fun p => ('"' :: p.1, p.2))
  | '\\' :: '\\' :: rest => (parseStringBody rest).map (fun p => ('\\' :: p.1, p.2))
  | '\\' :: '/' :: rest => (parseStringBody rest).map (fun p => ('/' :: p.1, p.2))
  | '\\' :: 'b' :: rest => (parseStringBody rest).map (fun p => ('\x08' :: p.1, p.2))
  | '\\' :: 'f' :: rest => (parseStringBody rest).map (fun p => ('\x0c' :: p.1, p.2))
  | '\\' :: 'n' :: rest => (parseStringBody rest).map (fun p => ('\n' :: p.1, p.2))
  | '\\' :: 'r' :: rest => (parseStringBody rest).map (fun p => ('\r' :: p.1, p.2))
  | '\\' :: 't' :: rest => (parseStringBody rest).map (fun p => ('\t' :: p.1, p.2))
  | '\\' :: 'u' :: h1 :: h2 :: h3 :: h4 :: rest =>
    match hexVal? h1, hexVal? h2, hexVal? h3, hexVal? h4 with
    | some a, some b, some c, some d =>
      (parseStringBody rest).map
        (fun p => (Char.ofNat (((a * 16 + b) * 16 + c) * 16 + d) :: p.1, p.2))
    | _, _, _, _ => none
  | '\\' :: _ => none
  | c :: rest =>
    if c.toNat < 0x20 then none
    else (parseStringBody rest).map (fun p => (c :: p.1, p.2))

/-- Take a maximal run of decimal digits. -/
def takeDigits : List Char → List Char × List Char
  | [] => ([], [])
  | c :: cs =>
    if c.isDigit then
      let p := takeDigits cs
      (c :: p.1, p.2)
    else ([], c :: cs)

/-- Decimal digits to a natural number (accumulator style). -/
def digitsToNatAux (acc : Nat) : List Char → Nat
  | [] => acc
  | c :: cs => digitsToNatAux (acc * 10 + (c.toNat - '0'.toNat)) cs

/-- Parse the exponent digits after `e`/`E`; returns the raw characters
(including an explicit sign) and the rest. -/
def parseExpTail (cs : List Char) : Option (List Char × List Char) :=
  match cs with
  | '+' :: t =>
    match takeDigits t with
    | ([], _) => none
    | (ds, r) => some ('+' :: ds, r)
  | '-' :: t =>
    match takeDigits t with
    | ([], _) => none
    | (ds, r) => some ('-' :: ds, r)
  | _ =>
    match takeDigits cs with
    | ([], _) => none
    | (ds, r) => some (ds, r)

/-- Parse an optional fraction and exponent; returns the raw suffix text and
the rest of the input. -/
def parseFracExp : List Char → Option (List Char × List Char)
  | '.' :: t =>
    (match takeDigits t with
     | ([], _) => none
     | (ds, r) =>
       match r with
       | 'e' :: r2 => (parseExpTail r2).map (fun p => ('.' :: ds ++ 'e' :: p.1, p.2))
       | 'E' :: r2 => (parseExpTail r2).map (fun p => ('.' :: ds ++ 'E' :: p.1, p.2))
       | _ => some ('.' :: ds, r))
  | 'e' :: r2 => (parseExpTail r2).map (fun p => ('e' :: p.1, p.2))
  | 'E' :: r2 => (parseExpTail r2).map (fun p => ('E' :: p.1, p.2))
  | cs => some ([], cs)

/-- Parse the unsigned part of a number: `0` or a nonzero digit followed by
digits (leading zeros rejected, as in `nlohmann::json`), then fraction and
exponent. -/
def parseNumberCore (cs : List Char) : Option ((Nat × String) × List Char) :=
  match cs with
  | '0' :: t => (parseFracExp t).map (fun p => ((0, String.mk p.1), p.2))
  | c :: t =>
    if c.isDigit then
      match takeDigits t with
      | (ds, r) =>
        (parseFracExp r).map
          (fun p => ((digitsToNatAux 0 (c :: ds), String.mk p.1), p.2))
    else none
  | [] => none

/-- Parse a number token starting at the current character. -/
def parseNumberTail (cs : List Char) : Option (Json × List Char) :=
  match cs with
  | '-' :: t => (parseNumberCore t).map (fun p => (Json.num (-(p.1.1 : Int)) p.1.2, p.2))
  | _ => (parseNumberCore cs).map (fun p => (Json.num (p.1.1 : Int) p.1.2, p.2))

mutual

/-- Fueled recursive-descent parser for a JSON value; the fuel only bounds the
nesting of fueled calls, each of which consumes input, so `2 * length + 4`
fuel (see `Json.parse`) never runs out on any input. -/
def parseValue : Nat → List Char → Option (Json × List Char)
  | 0, _ => none
  | fuel + 1, cs =>
    match skipWs cs with
    | [] => none
    | '\x7b' :: rest =>
      (match skipWs rest with
       | '\x7d' :: r => some (Json.obj [], r)
       | _ => parseMembers fuel rest [])
    | '[' :: rest =>
      (match skipWs rest with
       | ']' :: r => some (Json.arr [], r)
       | _ => parseElems fuel rest [])
    | '"' :: rest => (parseStringBody rest).map (fun p => (Json.str (String.mk p.1), p.2))
    | 't' :: 'r' :: 'u' :: 'e' :: rest => some (Json.bool true, rest)
    | 'f' :: 'a' :: 'l' :: 's' :: 'e' :: rest => some (Json.bool false, rest)
    | 'n' :: 'u' :: 'l' :: 'l' :: rest => some (Json.null, rest)
    | c :: rest =>
      if c == '-' || c.isDigit then parseNumberTail (c :: rest) else none

/-- Parse the members of an object (position: at a key, after `{` or `,`). -/
def parseMembers : Nat → List Char → List (String × Json) → Option (Json × List Char)
  | 0, _, _ => none
  | fuel + 1, cs, acc =>
    match skipWs cs with
    | '"' :: rest =>
      (match parseStringBody rest with
       | none => none
       | some (k, r1) =>
         match skipWs r1 with
         | ':' :: r2 =>
           (match parseValue fuel r2 with
            | none => none
            | some (v, r3) =>
              match skipWs r3 with
              | ',' :: r4 => parseMembers fuel r4 (objInsert (String.mk k) v acc)
              | '\x7d' :: r4 => some (Json.obj (objInsert (String.mk k) v acc), r4)
              | _ => none)
         | _ => none)
    | _ => none

/-- Parse the elements of an array (position: at a value, after `[` or `,`). -/
def parseElems : Nat → List Char → List Json → Option (Json × List Char)
  | 0, _, _ => none
  | fuel + 1, cs, acc =>
    match parseValue fuel cs with
    | none => none
    | some (v, r) =>
      match skipWs r with
      | ',' :: r2 => parseElems fuel r2 (acc ++ [v])
      | ']' :: r2 => some (Json.arr (acc ++ [v]), r2)
      | _ => none

end

/-- `nlohmann::json::parse`: parse a complete JSON document; trailing content
other than whitespace is an error. -/
def Json.parse (s : String) : Option Json :=
  match parseValue (2 * s.length + 4) s.data with
  | some (j, rest) => if skipWs rest = [] then some j else none
  | none => none

/-- Look a key up in an object's field list. -/
def lookupField : List (String × Json) → String → Option Json
  | [], _ => none
  | (k, v) :: fs, key => if k == key then some v else lookupField fs key

/-- `j.contains(key)` / `j[key]` on objects; `none` for non-objects (where
`contains` is false and `operator[]` would throw). -/
def jsonField? : Json → String → Option Json
  | Json.obj fs, key => lookupField fs key
  | _, _ => none

/-- `get<int>`: numbers (truncated toward zero) and booleans convert,
everything else throws (`none`). -/
def jsonInt? : Json → Option Int
  | Json.num i _ => some i
  | Json.bool b => some (if b then 1 else 0)
  | _ => none

-- ============================================================================
-- EscapeJson and nlohmann-style serialization (dump)
-- ============================================================================

/-- A hexadecimal digit character (lowercase, as `std::hex`). -/
def hexDigitChar (n : Nat) : Char :=
  if n < 10 then Char.ofNat ('0'.toNat + n) else Char.ofNat ('a'.toNat + (n - 10))

/-- Four lowercase hex digits (`std::setw(4) << std::setfill('0')`). -/
def hex4 (n : Nat) : String :=
  String.mk [hexDigitChar (n / 4096 % 16), hexDigitChar (n / 256 % 16),
             hexDigitChar (n / 16 % 16), hexDigitChar (n % 16)]

/-- One character of `EscapeJson` (ClaudeAPI.cpp); `nlohmann::json::dump`
escapes strings identically for the character ranges this program handles. -/
def escapeChar (c : Char) : String :=
  if c = '"' then "\\\""
  else if c = '\\' then "\\\\"
  else if c = '\x08' then "\\b"
  else if c = '\x0c' then "\\f"
  else if c = '\n' then "\\n"
  else if c = '\r' then "\\r"
  else if c = '\t' then "\\t"
  else if c.toNat ≤ 0x1f then "\\u" ++ hex4 c.toNat
  else String.singleton c

/-- `EscapeJson` from ClaudeAPI.cpp. -/
def escapeJson (s : String) : String :=
  String.join (s.data.map escapeChar)

mutual

/-- `nlohmann::json::dump()`: compact serialization, object keys in sorted
order (the representation invariant of `Json.obj`). -/
def Json.dump : Json → String
  | Json.null => "null"
  | Json.bool true => "true"
  | Json.bool false => "false"
  | Json.num i raw => toString i ++ raw
  | Json.str s => "\"" ++ escapeJson s ++ "\""
  | Json.arr es => "[" ++ dumpElems es ++ "]"
  | Json.obj fs => "\x7b" ++ dumpFields fs ++ "\x7d"

/-- Serialize array elements, comma separated. -/
def dumpElems : List Json → String
  | [] => ""
  | [e] => Json.dump e
  | e :: es => Json.dump e ++ "," ++ dumpElems es

/-- Serialize object fields, comma separated. -/
def dumpFields : List (String × Json) → String
  | [] => ""
  | [(k, v)] => "\"" ++ escapeJson k ++ "\":" ++ Json.dump v
  | (k, v) :: fs => "\"" ++ escapeJson k ++ "\":" ++ Json.dump v ++ "," ++ dumpFields fs

end

-- ============================================================================
-- ExtractJsonFromResponse (ClaudeAPI.cpp lines 154-245)
-- ============================================================================

/-- Scan `rem` (which is `hay.drop i`) for the first position at which
`needle` occurs; the returned index is absolute. -/
def findStrFromAux (needle : List Char) : List Char → Nat → Option Nat
  | rem, i =>
    if needle.isPrefixOf rem then some i
    else
      match rem with
      | [] => none
      | _ :: t => findStrFromAux needle t (i + 1)

/-- `std::string::find(needle, start)` (for nonempty needles). -/
def findStrFrom (hay needle : List Char) (start : Nat) : Option Nat :=
  findStrFromAux needle (hay.drop start) start

/-- Strategies 1 and 2 of `ExtractJsonFromResponse`: the candidate text, i.e.
the contents of a ```json fenced block if present, else of the first plain
``` fenced block if present, else the whole input.  A fence with no newline
after its opener or no closing fence leaves the candidate untouched. -/
def fenceCandidate (cs : List Char) : List Char :=
  match findStrFrom cs "```json".data 0 with
  | some jb =>
    (match findStrFrom cs ['\n'] jb with
     | some nl =>
       (match findStrFrom cs "```".data (nl + 1) with
        | some je => (cs.drop (nl + 1)).take (je - (nl + 1))
        | none => cs)
     | none => cs)
  | none =>
    match findStrFrom cs "```".data 0 with
    | some bb =>
      (match findStrFrom cs ['\n'] bb with
       | some nl =>
         (match findStrFrom cs "```".data (nl + 1) with
          | some je => (cs.drop (nl + 1)).take (je - (nl + 1))
          | none => cs)
       | none => cs)
    | none => cs

/-- The brace-depth scan of strategy 3: called on the input from `braceStart`
on, with `idx` the absolute index; `cnt` is incremented on `{`, decremented on
`}`, and the scan stops at the first index where it returns to zero. -/
def braceScanAux : List Char → Nat → Int → Option Nat
  | [], _, _ => none
  | c :: rest, i, cnt =>
    if c = '\x7b' then braceScanAux rest (i + 1) (cnt + 1)
    else if c = '\x7d' then
      (if cnt - 1 = 0 then some i else braceScanAux rest (i + 1) (cnt - 1))
    else braceScanAux rest (i + 1) cnt

/-- Strategy 3 of `ExtractJsonFromResponse`: find the first `{`, scan for the
matching depth-zero `}`, and keep the substring only if it parses as JSON. -/
def braceExtract? (t : List Char) : Option (List Char) :=
  match findStrFrom t ['\x7b'] 0 with
  | none => none
  | some bs =>
    match braceScanAux (t.drop bs) bs 0 with
    | none => none
    | some be =>
      let extracted := (t.drop bs).take (be - bs + 1)
      if (Json.parse (String.mk extracted)).isSome then some extracted else none

/-- Index of the first non-whitespace character
(`find_first_not_of(" \t\n\r")`). -/
def firstNotWs? : List Char → Option Nat
  | [] => none
  | c :: cs => if isWsChar c then (firstNotWs? cs).map (· + 1) else some 0

/-- Index of the last non-whitespace character
(`find_last_not_of(" \t\n\r")`). -/
def lastNotWs? (cs : List Char) : Option Nat :=
  (firstNotWs? cs.reverse).map (fun i => cs.length - 1 - i)

/-- Strategy 4 of `ExtractJsonFromResponse`: `substr(start, end - start + 1)`
when both indices exist, the input unchanged otherwise. -/
def trimWs (cs : List Char) : List Char :=
  match firstNotWs? cs, lastNotWs? cs with
  | some a, some b => (cs.drop a).take (b - a + 1)
  | _, _ => cs

/-- `ExtractJsonFromResponse` (ClaudeAPI.cpp): fenced-block candidate, then
validated brace-depth extraction, then whitespace trimming of the candidate. -/
def extractJsonFromResponse (content : String) : String :=
  let t := fenceCandidate content.data
  match braceExtract? t with
  | some e => String.mk e
  | none => String.mk (trimWs t)

-- ============================================================================
-- GetActionFromClaude with the turn cache (ClaudeAPI.cpp lines 678-802)
-- ============================================================================

/-- The turn-based rate-limiting state: `g_lastQueriedTurn`,
`g_lastQueriedPlayer`, `g_cachedResponse`. -/
structure CacheState where
  lastQueriedTurn : Int
  lastQueriedPlayer : Int
  cachedResponse : String
deriving DecidableEq

/-- The state after `ResetTurnTracking` and at startup: sentinel key (-1,-1),
empty payload. -/
def initialCache : CacheState := ⟨-1, -1, ""⟩

/-- `ExtractTurnAndPlayer`: parse the game state, read integer fields "turn"
and "playerID"; any exception leaves the not-yet-assigned components at -1. -/
def extractTurnAndPlayer (gameStateJson : String) : Int × Int :=
  match Json.parse gameStateJson with
  | none => (-1, -1)
  | some gs =>
    match jsonField? gs "turn" with
    | some t =>
      (match jsonInt? t with
       | some ti =>
         (match jsonField? gs "playerID" with
          | some p =>
            (match jsonInt? p with
             | some pi => (ti, pi)
             | none => (ti, -1))
          | none => (ti, -1))
       | none => (-1, -1))
    | none =>
      match jsonField? gs "playerID" with
      | some p =>
        (match jsonInt? p with
         | some pi => (-1, pi)
         | none => (-1, -1))
      | none => (-1, -1)

/-- The cache-hit test of `GetActionFromClaude`: both components non-negative
and exactly equal to the stored key. -/
def cacheHitCheck (st : CacheState) (turn player : Int) : Bool :=
  decide (0 ≤ turn) && decide (0 ≤ player) &&
  decide (turn = st.lastQueriedTurn) && decide (player = st.lastQueriedPlayer)

/-- The fresh-query tail of `GetActionFromClaude` (everything after the cache
check; the network call always happens here).  `httpResponse` is the oracle
for the body `HttpPost` returns (the system prompt and request body only shape
the outbound request, which the oracle abstracts).  Returns the action/error
string and the cache state after the call. -/
def performFreshQuery (httpResponse : String) (currentTurn currentPlayer : Int)
    (st : CacheState) : String × CacheState :=
  if httpResponse = "" then ("\x7b\"error\":\"Empty response\"\x7d", st)
  else
    match Json.parse httpResponse with
    | none => ("\x7b\"error\":\"JSON parse error\"\x7d", st)
    | some responseJson =>
      match jsonField? responseJson "error" with
      | some errVal =>
        -- responseJson["error"]["message"].get<string>(); any throw is
        -- caught by the enclosing handler ("JSON parse error")
        (match jsonField? errVal "message" with
         | some (Json.str errorMsg) =>
           ("\x7b\"error\":\"" ++ escapeJson errorMsg ++ "\"\x7d", st)
         | _ => ("\x7b\"error\":\"JSON parse error\"\x7d", st))
      | none =>
        match jsonField? responseJson "content" with
        | some (Json.arr (elem0 :: _)) =>
          (match jsonField? elem0 "text" with
           | some (Json.str content) =>
             let jsonStr := extractJsonFromResponse content
             let result :=
               if jsonStr ≠ "" then
                 match Json.parse jsonStr with
                 | some actionJson => Json.dump actionJson
                 | none =>
                   "\x7b\"action\":\"end_turn\",\"reason\":\"Invalid JSON from Claude\"\x7d"
               else
                 "\x7b\"action\":\"end_turn\",\"reason\":\"" ++ escapeJson content ++ "\"\x7d"
             (result, ⟨currentTurn, currentPlayer, result⟩)
           | _ => ("\x7b\"error\":\"JSON parse error\"\x7d", st))
        | some (Json.arr []) => ("\x7b\"error\":\"Unexpected response format\"\x7d", st)
        | some _ => ("\x7b\"error\":\"Unexpected response format\"\x7d", st)
        | none => ("\x7b\"error\":\"Unexpected response format\"\x7d", st)

/-- `GetActionFromClaude`: key guard, cache check, then the fresh query.
Result: the returned action/error string, the updated cache state, and
whether the network call was issued. -/
def getActionFromClaude (apiKey : String) (httpResponse : String)
    (st : CacheState) (gameStateJson : String) : String × CacheState × Bool :=
  if apiKey = "" then ("\x7b\"error\":\"API key not set\"\x7d", st, false)
  else
    match extractTurnAndPlayer gameStateJson with
    | (currentTurn, currentPlayer) =>
      if cacheHitCheck st currentTurn currentPlayer then
        (if st.cachedResponse ≠ "" then st.cachedResponse
         else "\x7b\"action\":\"end_turn\",\"reason\":\"Already queried this turn\"\x7d",
         st, false)
      else
        let r := performFreshQuery httpResponse currentTurn currentPlayer st
        (r.1, r.2, true)

-- ============================================================================
-- Async request engine (ClaudeAPI.cpp lines 808-975)
-- ============================================================================

/-- `AsyncState` from ClaudeAPI.h. -/
inductive AsyncState where
  | Idle : AsyncState
  | Pending : AsyncState
  | Ready : AsyncState
  | Failed : AsyncState
deriving DecidableEq

/-- The module state of the async engine: `g_asyncState`, `g_asyncResponse`,
`g_asyncError`, `g_asyncCancelled`. -/
structure EngineState where
  state : AsyncState
  response : String
  error : String
  cancelled : Bool
deriving DecidableEq

/-- The initial module state (Idle, empty slots, flag clear). -/
def initEngine : EngineState := ⟨AsyncState.Idle, "", "", false⟩

/-- `StartAsyncRequest`.  `keyOk` abstracts "`g_apiKey` is already non-empty,
or `Initialize()` finds the credential in the environment".  Returns the
boolean result, the new state, and `some snapshot` exactly when a worker
thread bound to the snapshot is launched. -/
def startAsyncRequest (keyOk : Bool) (snapshot : String) (s : EngineState) :
    Bool × EngineState × Option String :=
  if s.state = AsyncState.Pending then (false, s, none)
  else if keyOk = false then
    (false, { s with error := "Failed to initialize API", state := AsyncState.Failed }, none)
  else
    (true,
     { s with response := "", error := "", cancelled := false, state := AsyncState.Pending },
     some snapshot)

/-- The worker's classification of a finished result (`AsyncWorkerThread`
store block): the stored error text if the result parses as JSON and carries a
string-valued "error" member; otherwise `none` (the `get<std::string>` throw
on a non-string "error" is swallowed by `catch (...)`, ending in Ready). -/
def errorOf (result : String) : Option String :=
  match Json.parse result with
  | none => none
  | some j =>
    match jsonField? j "error" with
    | some (Json.str e) => some e
    | some _ => none
    | none => none

/-- One worker cycle after a successful start (`AsyncWorkerThread`): `c1` and
`c2` are the values of `g_asyncCancelled` the worker loads at its checkpoint
before and after the blocking call; `result` is what `GetActionFromClaude`
returned.  Produces the new engine state and whether a result was published. -/
def workerRun (c1 c2 : Bool) (result : String) (s : EngineState) : EngineState × Bool :=
  if c1 then ({ s with state := AsyncState.Idle }, false)
  else if c2 then ({ s with state := AsyncState.Idle }, false)
  else
    match errorOf result with
    | some e => ({ s with response := result, error := e, state := AsyncState.Failed }, true)
    | none => ({ s with response := result, state := AsyncState.Ready }, true)

/-- `GetAsyncResponse`: the payload and the state after the call. -/
def getAsyncResponse (s : EngineState) : String × EngineState :=
  if s.state = AsyncState.Ready then
    (s.response, { s with response := "", state := AsyncState.Idle })
  else ("", s)

/-- `GetAsyncError`: the returned text and the (unchanged) state after the
call. -/
def getAsyncError (s : EngineState) : String × EngineState :=
  (s.error, s)

/-- `CancelAsyncRequest` after the worker has been joined: the flag was set,
the state is forced to Idle and both slots are cleared.  The join itself is
modelled by composing `workerRun` (with the checkpoint observations the
interleaving dictates) before this reset. -/
def cancelAsyncRequest (_s : EngineState) : EngineState :=
  ⟨AsyncState.Idle, "", "", true⟩

/-- The operations that touch the engine state, for reachability reasoning.
`workerFinish`/`workerExcept` apply only while a request is Pending (the
worker only runs inside a start-to-finish cycle); `workerExcept` is the
worker's catch-all exception handler. -/
inductive AsyncOp where
  | start (keyOk : Bool) (snapshot : String) : AsyncOp
  | workerFinish (c1 c2 : Bool) (result : String) : AsyncOp
  | workerExcept (msg : String) : AsyncOp
  | takeResult : AsyncOp
  | readError : AsyncOp
  | cancel : AsyncOp

/-- Effect of one operation on the engine state. -/
def applyOp (s : EngineState) : AsyncOp → EngineState
  | AsyncOp.start keyOk snap => (startAsyncRequest keyOk snap s).2.1
  | AsyncOp.workerFinish c1 c2 result =>
    if s.state = AsyncState.Pending then (workerRun c1 c2 result s).1 else s
  | AsyncOp.workerExcept msg =>
    if s.state = AsyncState.Pending then
      { s with error := "Exception: " ++ msg, state := AsyncState.Failed }
    else s
  | AsyncOp.takeResult => (getAsyncResponse s).2
  | AsyncOp.readError => (getAsyncError s).2
  | AsyncOp.cancel => cancelAsyncRequest s

/-- Engine states reachable from startup through the module's operations. -/
def reachableEngine (s : EngineState) : Prop :=
  ∃ ops : List AsyncOp, s = ops.foldl applyOp initEngine

-- ============================================================================
-- Runtime bridge: HookedPcall / RegisterFunctionInState
-- (HavokScriptIntegration.cpp lines 74-99 and 199-252)
-- ============================================================================

/-- Module state of the bridge: the primary `g_luaState` slot, the registered
set `g_registeredStates`, a log of performed registrations (each entry is one
execution of the four-callable binding block), and `g_claudeAPIInitialized`.
Lua state handles are modelled as natural numbers; a null handle is `none` at
the interception point. -/
structure BridgeState where
  luaState : Option Nat
  registered : List Nat
  regEvents : List Nat
  apiInitialized : Bool

/-- Startup bridge state. -/
def initBridge : BridgeState := ⟨none, [], [], false⟩

/-- Environment of the bridge: whether shutdown has been requested and whether
`hks::pushnamedcclosure` and `hks::setfield` were resolved. -/
structure BridgeEnv where
  shutdown : Bool
  hksAvailable : Bool

/-- `RegisterFunctionInState`: bail out on shutdown or missing hks functions;
otherwise mark the API initialization attempt done, bind the four callables
(logged in `regEvents`) and insert the handle into the registered set. -/
def registerFunctionInState (env : BridgeEnv) (L : Nat) (s : BridgeState) : BridgeState :=
  if env.shutdown then s
  else if env.hksAvailable = false then s
  else
    { s with apiInitialized := true,
             registered := s.registered.insert L,
             regEvents := s.regEvents ++ [L] }

/-- `HookedPcall` up to the forwarding of the original call: capture the first
non-null handle into the primary slot, then (unless shutting down) register
the bridge functions in any not-yet-registered state. -/
def hookedPcall (env : BridgeEnv) (L : Option Nat) (s : BridgeState) : BridgeState :=
  match L with
  | none => s
  | some h =>
    let s1 := if s.luaState = none then { s with luaState := some h } else s
    if env.shutdown then s1
    else if h ∈ s1.registered then s1
    else registerFunctionInState env h s1

/-- A sequence of interception events. -/
def runPcalls (env : BridgeEnv) (events : List (Option Nat)) (s : BridgeState) : BridgeState :=
  events.foldl (fun acc e => hookedPcall env e acc) s

-- ============================================================================
-- Lua entry points (HavokScriptIntegration.cpp lines 498-609)
-- ============================================================================

/-- The argument situation a Lua-callable entry point can see: no argument on
the stack, `checklstring` yielding a null pointer, or a string of some
length. -/
inductive LuaArg where
  | noArg : LuaArg
  | nullStr : LuaArg
  | str (s : String) : LuaArg

/-- `lua_SendGameStateToClaudeAPI`: shutdown guard, argument validation, then
the blocking call.  `checkAvail` abstracts `hks::checklstring != nullptr`.
Result: the string pushed back to Lua, the cache state after the call, and
whether `GetActionFromClaude` was invoked. -/
def lua_SendGameStateToClaudeAPI (shutdown checkAvail : Bool) (arg : LuaArg)
    (apiKey httpResponse : String) (st : CacheState) : String × CacheState × Bool :=
  if shutdown then ("\x7b\"error\":\"Shutdown in progress\"\x7d", st, false)
  else
    match arg with
    | LuaArg.str s =>
      if checkAvail ∧ s.length > 0 then
        let r := getActionFromClaude apiKey httpResponse st s
        (r.1, r.2.1, true)
      else ("\x7b\"error\":\"No game state received\"\x7d", st, false)
    | _ => ("\x7b\"error\":\"No game state received\"\x7d", st, false)

/-- `lua_StartClaudeAPIRequest`: shutdown guard, argument validation, then
`StartAsyncRequest`.  Result: the boolean pushed back to Lua, the engine state
after the call, and whether `StartAsyncRequest` was invoked. -/
def lua_StartClaudeAPIRequest (shutdown checkAvail : Bool) (arg : LuaArg)
    (keyOk : Bool) (es : EngineState) : Bool × EngineState × Bool :=
  if shutdown then (false, es, false)
  else
    match arg with
    | LuaArg.str s =>
      if checkAvail ∧ s.length > 0 then
        let r := startAsyncRequest keyOk s es
        (r.1, r.2.1, true)
      else (false, es, false)
    | _ => (false, es, false)

-- ============================================================================
-- Concrete inputs used by the test-vector claims
-- ============================================================================

/-- Game state naming turn 5, actor 0. -/
def gameState5 : String := "\x7b\"turn\":5,\"playerID\":0\x7d"

/-- Game state naming turn 6, actor 0. -/
def gameState6 : String := "\x7b\"turn\":6,\"playerID\":0\x7d"

/-- A successful service reply whose text payload is the end-turn action. -/
def okServiceReply : String :=
  "\x7b\"content\":[\x7b\"text\":\"\x7b\\\"action\\\":\\\"end_turn\\\"\x7d\"\x7d]\x7d"

/-- The structured error reply of the error-surfacing test vector. -/
def serviceErrorReply : String := "\x7b\"error\":\x7b\"message\":\"rate limited\"\x7d\x7d"

/-- A response text with a fenced block whose contents are not JSON. -/
def fencedNonJsonInput : String := "before\n```\nnot json\n```\nafter"

-- ============================================================================
-- Claim theorems
-- ============================================================================

/-- Claim C4: the three extraction test vectors: a tagged fenced block wins
over loose braces; a balanced brace-depth scan (not first-to-last brace) finds
the object; plain text is returned verbatim. -/
theorem c4_extraction_vectors :
    extractJsonFromResponse "```json\n\x7b\"a\":1\x7d\n```\nextra \x7b\"b\":2\x7d"
      = "\x7b\"a\":1\x7d" ∧
    extractJsonFromResponse "noise \x7b\"x\":\x7b\"y\":2\x7d\x7d trailer"
      = "\x7b\"x\":\x7b\"y\":2\x7d\x7d" ∧
    extractJsonFromResponse "just plain text" = "just plain text" := by
  decide

/-- Claim C7: a worker cycle whose service reply is
`{"error":{"message":"rate limited"}}` ends in the Failed state with the
stored error text exactly "rate limited". -/
theorem c7_error_surfacing :
    ((workerRun false false
        (getActionFromClaude "k" serviceErrorReply initialCache "state").1
        ⟨AsyncState.Pending, "", "", false⟩).1.state = AsyncState.Failed) ∧
    ((workerRun false false
        (getActionFromClaude "k" serviceErrorReply initialCache "state").1
        ⟨AsyncState.Pending, "", "", false⟩).1.error = "rate limited") := by
  decide

/-- Claim C1 counterexample: with the API key unavailable, a `StartAsyncRequest`
from a non-Pending state returns false and mutates the state (to Failed with a
stored error), contradicting "in every other state it ... returns true". -/
theorem c1_start_counterexample :
    initEngine.state ≠ AsyncState.Pending ∧
    (startAsyncRequest false "snapshot" initEngine).1 = false ∧
    (startAsyncRequest false "snapshot" initEngine).2.1 ≠ initEngine := by
  decide

/-- Claim C1 (amended): Start while Pending returns false with no mutation and
launches nothing; from any other state, if the API key is available it clears
both slots, clears the cancellation flag, sets Pending and launches a worker
bound to the snapshot, returning true; if the key is unavailable it stores an
initialization error, sets the state to Failed and returns false. -/
theorem c1_start_behavior (keyOk : Bool) (snap : String) (s : EngineState) :
    (s.state = AsyncState.Pending → startAsyncRequest keyOk snap s = (false, s, none)) ∧
    (s.state ≠ AsyncState.Pending → keyOk = true →
      startAsyncRequest keyOk snap s =
        (true,
         { s with response := "", error := "", cancelled := false,
                  state := AsyncState.Pending },
         some snap)) ∧
    (s.state ≠ AsyncState.Pending → keyOk = false →
      startAsyncRequest keyOk snap s =
        (false,
         { s with error := "Failed to initialize API", state := AsyncState.Failed },
         none)) := by
  refine ⟨fun h => ?_, fun h hk => ?_, fun h hk => ?_⟩
  · simp [startAsyncRequest, h]
  · simp [startAsyncRequest, h, hk]
  · simp [startAsyncRequest, h, hk]

/-- Witness for C1 at a concrete non-Pending state with the key available. -/
theorem c1_start_witness :
    startAsyncRequest true "g" initEngine =
      (true, ⟨AsyncState.Pending, "", "", false⟩, some "g") :=
  (c1_start_behavior true "g" initEngine).2.1 (by decide) rfl

/-- Claim C2: when the state is Ready, `GetAsyncResponse` returns the payload
and resets to Idle with the payload cleared, and a second call returns the
empty string leaving the state Idle; in any other state it returns the empty
string and changes nothing. -/
theorem c2_take_result (s : EngineState) :
    (s.state = AsyncState.Ready →
      getAsyncResponse s = (s.response, { s with response := "", state := AsyncState.Idle }) ∧
      getAsyncResponse { s with response := "", state := AsyncState.Idle }
        = ("", { s with response := "", state := AsyncState.Idle })) ∧
    (s.state ≠ AsyncState.Ready → getAsyncResponse s = ("", s)) := by
  constructor
  · intro h
    constructor
    · simp [getAsyncResponse, h]
    · simp [getAsyncResponse]
  · intro h
    simp [getAsyncResponse, h]

/-- Witness for C2 at a concrete Ready state holding payload "P". -/
theorem c2_take_result_witness :
    getAsyncResponse ⟨AsyncState.Ready, "P", "", false⟩
        = ("P", ⟨AsyncState.Idle, "", "", false⟩) ∧
    getAsyncResponse ⟨AsyncState.Idle, "", "", false⟩
        = ("", ⟨AsyncState.Idle, "", "", false⟩) :=
  (c2_take_result ⟨AsyncState.Ready, "P", "", false⟩).1 rfl

/-- Claim C3: a successful Start followed by a Cancel whose flag the worker
observes at either checkpoint ends with state Idle, empty payload and error
slots, and a subsequent Start succeeds; a worker that observes the
cancellation flag at either checkpoint publishes nothing (it only transitions
the state to Idle, leaving both slots untouched). -/
theorem c3_cancellation (s0 : EngineState) (h0 : s0.state ≠ AsyncState.Pending)
    (snap snap2 result : String) (c1 c2 : Bool) (hc : c1 = true ∨ c2 = true) :
    (startAsyncRequest true snap s0).1 = true ∧
    (∀ (s : EngineState) (r : String),
      (workerRun c1 c2 r s).2 = false ∧
      (workerRun c1 c2 r s).1 = { s with state := AsyncState.Idle }) ∧
    ((cancelAsyncRequest (workerRun c1 c2 result (startAsyncRequest true snap s0).2.1).1).state
        = AsyncState.Idle ∧
     (cancelAsyncRequest (workerRun c1 c2 result (startAsyncRequest true snap s0).2.1).1).response
        = "" ∧
     (cancelAsyncRequest (workerRun c1 c2 result (startAsyncRequest true snap s0).2.1).1).error
        = "" ∧
     (startAsyncRequest true snap2
        (cancelAsyncRequest
          (workerRun c1 c2 result (startAsyncRequest true snap s0).2.1).1)).1 = true) := by
  have hworker : ∀ (s : EngineState) (r : String),
      (workerRun c1 c2 r s).2 = false ∧
      (workerRun c1 c2 r s).1 = { s with state := AsyncState.Idle } := by
    intro s r
    rcases hc with hc | hc <;> simp [workerRun, hc]
  refine ⟨by simp [startAsyncRequest, h0], hworker, ?_, ?_, ?_, ?_⟩ <;>
    simp [cancelAsyncRequest, startAsyncRequest]

/-- Witness for C3: concrete run from the initial state, cancellation observed
at the first checkpoint. -/
theorem c3_cancellation_witness :
    (startAsyncRequest true "g" initEngine).1 = true ∧
    (cancelAsyncRequest
        (workerRun true false "r" (startAsyncRequest true "g" initEngine).2.1).1).state
      = AsyncState.Idle :=
  ⟨(c3_cancellation initEngine (by decide) "g" "g2" "r" true false (Or.inl rfl)).1,
   (c3_cancellation initEngine (by decide) "g" "g2" "r" true false (Or.inl rfl)).2.2.1⟩

/-- Helper: a query whose (turn, actor) pair equals the stored key (5, 0) with
a non-empty cached payload returns the payload, leaves the cache unchanged and
issues no network call, for every oracle. -/
theorem cacheHit_at_5_0 (apiKey : String) (hkey : ¬ apiKey = "") (oracle P : String)
    (hP : ¬ P = "") :
    getActionFromClaude apiKey oracle ⟨5, 0, P⟩ gameState5 = (P, ⟨5, 0, P⟩, false) := by
  have h5 : extractTurnAndPlayer gameState5 = (5, 0) := by decide
  have hhit : cacheHitCheck ⟨5, 0, P⟩ 5 0 = true := by simp [cacheHitCheck]
  simp [getActionFromClaude, hkey, h5, hhit, hP]

/-- Claim C6: a lookup for the stored pair (5, 0) returns the cached payload
with no network call; a lookup for (6, 0) misses and issues the network call;
the cache-hit test is exact integer equality on both components (for
non-negative keys); and a fresh query for (5, 0) stores its payload so that
the subsequent (5, 0) request returns it without any network call. -/
theorem c6_turn_cache (apiKey : String) (hkey : ¬ apiKey = "") (oracle oracle2 P : String)
    (hP : ¬ P = "") :
    (getActionFromClaude apiKey oracle ⟨5, 0, P⟩ gameState5 = (P, ⟨5, 0, P⟩, false)) ∧
    ((getActionFromClaude apiKey oracle ⟨5, 0, P⟩ gameState6).2.2 = true) ∧
    (∀ (st : CacheState) (t p : Int),
      cacheHitCheck st t p = true ↔
        0 ≤ t ∧ 0 ≤ p ∧ t = st.lastQueriedTurn ∧ p = st.lastQueriedPlayer) ∧
    ((getActionFromClaude "k" okServiceReply initialCache gameState5).2.2 = true ∧
     (getActionFromClaude "k" okServiceReply initialCache gameState5).2.1
       = ⟨5, 0, (getActionFromClaude "k" okServiceReply initialCache gameState5).1⟩ ∧
     getActionFromClaude "k" oracle2
         (getActionFromClaude "k" okServiceReply initialCache gameState5).2.1 gameState5
       = ((getActionFromClaude "k" okServiceReply initialCache gameState5).1,
          (getActionFromClaude "k" okServiceReply initialCache gameState5).2.1,
          false)) := by
  refine ⟨cacheHit_at_5_0 apiKey hkey oracle P hP, ?_, ?_, ?_, ?_, ?_⟩
  · have h6 : extractTurnAndPlayer gameState6 = (6, 0) := by decide
    have hmiss : cacheHitCheck ⟨5, 0, P⟩ 6 0 = false := by simp [cacheHitCheck]
    simp [getActionFromClaude, hkey, h6, hmiss]
  · intro st t p
    simp [cacheHitCheck, and_assoc]
  · decide
  · decide
  · have hst : (getActionFromClaude "k" okServiceReply initialCache gameState5).2.1
        = ⟨5, 0, (getActionFromClaude "k" okServiceReply initialCache gameState5).1⟩ := by
      decide
    rw [hst]
    exact cacheHit_at_5_0 "k" (by decide) oracle2
      (getActionFromClaude "k" okServiceReply initialCache gameState5).1 (by decide)

/-- Witness for C6 at concrete key, payload and oracles. -/
theorem c6_turn_cache_witness :
    getActionFromClaude "k" "o" ⟨5, 0, "P"⟩ gameState5 = ("P", ⟨5, 0, "P"⟩, false) :=
  (c6_turn_cache "k" (by decide) "o" "o2" "P" (by decide)).1

/-- Helper for C8: running a batch of non-null interception events preserves
the bridge invariant (the registration log is duplicate-free and records
exactly the registered set), and extends the set of logged registrations by
exactly the handles seen. -/
theorem runPcalls_registration (env : BridgeEnv) (hsd : env.shutdown = false)
    (hav : env.hksAvailable = true) :
    ∀ (hs : List Nat) (s : BridgeState),
      s.regEvents.Nodup → s.registered.toFinset = s.regEvents.toFinset →
      ((runPcalls env (hs.map some) s).regEvents.Nodup ∧
       (runPcalls env (hs.map some) s).registered.toFinset
         = (runPcalls env (hs.map some) s).regEvents.toFinset ∧
       (runPcalls env (hs.map some) s).regEvents.toFinset
         = s.regEvents.toFinset ∪ hs.toFinset) := by
  intro hs
  induction hs with
  | nil =>
    intro s hnd hset
    simpa [runPcalls] using ⟨hnd, hset⟩
  | cons h t ih =>
    intro s hnd hset
    have hstep : runPcalls env ((h :: t).map some) s
        = runPcalls env (t.map some) (hookedPcall env (some h) s) := by
      simp [runPcalls]
    by_cases hmem : h ∈ s.registered
    · have h1 : hookedPcall env (some h) s
          = if s.luaState = none then { s with luaState := some h } else s := by
        simp [hookedPcall, hsd, hmem]
        intro _
        split <;> simp_all
      have hin : h ∈ s.regEvents.toFinset := by
        rw [← hset]; exact List.mem_toFinset.mpr hmem
      rcases ih (hookedPcall env (some h) s)
          (by rw [h1]; split <;> simpa using hnd)
          (by rw [h1]; split <;> simpa using hset) with ⟨ha, hb, hc⟩
      rw [hstep]
      refine ⟨ha, hb, ?_⟩
      rw [hc, h1]
      have hre : (if s.luaState = none then { s with luaState := some h } else s).regEvents
          = s.regEvents := by split <;> rfl
      rw [hre, List.toFinset_cons, Finset.union_insert,
          Finset.insert_eq_self.mpr (Finset.mem_union_left _ hin)]
    · have h1 : hookedPcall env (some h) s
          = { s with luaState := if s.luaState = none then some h else s.luaState,
                     apiInitialized := true,
                     registered := s.registered.insert h,
                     regEvents := s.regEvents ++ [h] } := by
        simp [hookedPcall, hsd, hmem, registerFunctionInState, hav]
        split <;> simp_all
      have hnotin : h ∉ s.regEvents := by
        intro hcon
        exact hmem (List.mem_toFinset.mp (hset ▸ List.mem_toFinset.mpr hcon))
      have hnd' : (s.regEvents ++ [h]).Nodup := by
        rw [List.nodup_append]
        exact ⟨hnd, List.nodup_singleton h, List.disjoint_singleton.mpr hnotin⟩
      have hset' : (s.registered.insert h).toFinset = (s.regEvents ++ [h]).toFinset := by
        rw [List.insert_of_not_mem hmem, List.toFinset_cons, hset, List.toFinset_append,
           Finset.union_comm]
        simp [Finset.insert_eq]
      rcases ih (hookedPcall env (some h) s) (by rw [h1]; exact hnd')
          (by rw [h1]; exact hset') with ⟨ha, hb, hc⟩
      rw [hstep]
      refine ⟨ha, hb, ?_⟩
      rw [hc, h1]
      simp only [List.toFinset_append, List.toFinset_cons]
      rw [Finset.union_insert]
      simp [Finset.union_assoc, Finset.union_comm, List.toFinset_cons]

/-- Claim C8: with shutdown not requested and the runtime's registration
functions available, a sequence of interception events performs the
registration side effect exactly once per distinct handle: the registration
log is duplicate-free, covers exactly the handles seen, has length equal to
the number of distinct handles, and N ≥ 1 events carrying one same handle
register it exactly once. -/
theorem c8_idempotent_registration (env : BridgeEnv) (hsd : env.shutdown = false)
    (hav : env.hksAvailable = true) (hs : List Nat) :
    ((runPcalls env (hs.map some) initBridge).regEvents.Nodup) ∧
    ((runPcalls env (hs.map some) initBridge).regEvents.toFinset = hs.toFinset) ∧
    ((runPcalls env (hs.map some) initBridge).regEvents.length = hs.toFinset.card) ∧
    (∀ (h : Nat) (n : Nat), 0 < n →
      (runPcalls env (List.replicate n (some h)) initBridge).regEvents = [h]) := by
  obtain ⟨ha, hb, hc⟩ := runPcalls_registration env hsd hav hs initBridge
    (by simp [initBridge]) (by simp [initBridge])
  have hfin : (runPcalls env (hs.map some) initBridge).regEvents.toFinset = hs.toFinset := by
    rw [hc]; simp [initBridge]
  refine ⟨ha, hfin, ?_, ?_⟩
  · rw [← List.toFinset_card_of_nodup ha, hfin]
  · intro h n hn
    have hrep : List.replicate n (some h) = (List.replicate n h).map some := by simp
    obtain ⟨ha2, _, hc2⟩ := runPcalls_registration env hsd hav (List.replicate n h) initBridge
      (by simp [initBridge]) (by simp [initBridge])
    rw [hrep]
    have hfin2 : (runPcalls env ((List.replicate n h).map some) initBridge).regEvents.toFinset
        = {h} := by
      rw [hc2]
      simp [initBridge, List.toFinset_replicate_of_ne_zero (Nat.pos_iff_ne_zero.mp hn)]
    have hlen : (runPcalls env ((List.replicate n h).map some) initBridge).regEvents.length
        = 1 := by
      rw [← List.toFinset_card_of_nodup ha2, hfin2]
      simp
    obtain ⟨a, hae⟩ := List.length_eq_one.mp hlen
    have hah : a ∈ ({h} : Finset Nat) := by
      rw [← hfin2, hae]; simp
    rw [hae]
    simp only [Finset.mem_singleton] at hah
    rw [hah]

/-- Witness for C8: three events with two distinct handles, and three events
with the same handle. -/
theorem c8_idempotent_registration_witness :
    (runPcalls ⟨false, true⟩ ([7, 7, 9].map some) initBridge).regEvents.toFinset
      = ([7, 7, 9] : List Nat).toFinset ∧
    (runPcalls ⟨false, true⟩ (List.replicate 3 (some 7)) initBridge).regEvents = [7] :=
  ⟨(c8_idempotent_registration ⟨false, true⟩ rfl rfl [7, 7, 9]).2.1,
   (c8_idempotent_registration ⟨false, true⟩ rfl rfl [7, 7, 9]).2.2.2 7 3 (by decide)⟩

/-- Helper for C9: every engine operation preserves the invariant "outside
the Failed state the error slot is empty". -/
theorem applyOp_preserves_errorInv (s : EngineState) (op : AsyncOp)
    (hInv : s.state ≠ AsyncState.Failed → s.error = "") :
    (applyOp s op).state ≠ AsyncState.Failed → (applyOp s op).error = "" := by
  cases op with
  | start keyOk snap =>
    rcases keyOk with _ | _ <;> by_cases hp : s.state = AsyncState.Pending <;>
      simp_all [applyOp, startAsyncRequest]
  | workerFinish c1 c2 result =>
    by_cases hp : s.state = AsyncState.Pending
    · have herr : s.error = "" := hInv (by simp [hp])
      rcases c1 with _ | _ <;> rcases c2 with _ | _ <;>
        rcases herrOf : errorOf result with _ | e <;>
          simp_all [applyOp, workerRun]
    · simp_all [applyOp]
  | workerExcept msg =>
    by_cases hp : s.state = AsyncState.Pending <;> simp_all [applyOp]
  | takeResult =>
    by_cases hr : s.state = AsyncState.Ready <;> simp_all [applyOp, getAsyncResponse]
  | readError => simp_all [applyOp, getAsyncError]
  | cancel => simp [applyOp, cancelAsyncRequest]

/-- Helper for C9: the invariant holds along any operation sequence. -/
theorem foldl_preserves_errorInv (ops : List AsyncOp) :
    ∀ s : EngineState, (s.state ≠ AsyncState.Failed → s.error = "") →
      ((ops.foldl applyOp s).state ≠ AsyncState.Failed → (ops.foldl applyOp s).error = "") := by
  induction ops with
  | nil => intro s h; simpa using h
  | cons op t ih =>
    intro s h
    simpa [List.foldl_cons] using ih (applyOp s op) (applyOp_preserves_errorInv s op h)

/-- Claim C9: on every reachable engine state, `GetAsyncError` returns the
error text when the state is Failed and the empty string in every other
state; it never changes the state, so repeated reads return the same text. -/
theorem c9_take_error (s : EngineState) (hr : reachableEngine s) :
    (getAsyncError s).2 = s ∧
    (s.state = AsyncState.Failed → (getAsyncError s).1 = s.error) ∧
    (s.state ≠ AsyncState.Failed → (getAsyncError s).1 = "") ∧
    (getAsyncError ((getAsyncError s).2)).1 = (getAsyncError s).1 := by
  obtain ⟨ops, rfl⟩ := hr
  refine ⟨rfl, fun _ => rfl, ?_, rfl⟩
  exact foldl_preserves_errorInv ops initEngine (fun _ => rfl)

/-- Witness for C9 at the initial (reachable, non-Failed) state. -/
theorem c9_take_error_witness :
    (getAsyncError initEngine).2 = initEngine ∧ (getAsyncError initEngine).1 = "" :=
  ⟨(c9_take_error initEngine ⟨[], rfl⟩).1,
   (c9_take_error initEngine ⟨[], rfl⟩).2.2.1 (by decide)⟩

/-- Helper: `firstNotWs?` finds nothing exactly on all-whitespace input. -/
theorem firstNotWs_eq_none_iff (cs : List Char) :
    firstNotWs? cs = none ↔ ∀ c ∈ cs, isWsChar c := by
  induction cs with
  | nil => simp [firstNotWs?]
  | cons c t ih =>
    by_cases hc : isWsChar c <;> simp [firstNotWs?, hc, ih]

/-- Helper: the index `firstNotWs?` returns is the length of the leading
whitespace run. -/
theorem firstNotWs_eq_takeWhile_length (cs : List Char) (a : Nat)
    (h : firstNotWs? cs = some a) : a = (cs.takeWhile isWsChar).length := by
  induction cs generalizing a with
  | nil => simp [firstNotWs?] at h
  | cons c t ih =>
    by_cases hc : isWsChar c
    · simp only [firstNotWs?, hc, if_pos] at h
      rcases Option.map_eq_some'.mp h with ⟨a', ha', rfl⟩
      simp [hc, ih a' ha']
    · simp [firstNotWs?, hc] at h
      have ha0 : a = 0 := by omega
      subst ha0
      simp [hc]

/-- Helper: dropping `firstNotWs?`-many characters is `dropWhile`. -/
theorem drop_firstNotWs_eq_dropWhile (cs : List Char) (a : Nat)
    (h : firstNotWs? cs = some a) : cs.drop a = cs.dropWhile isWsChar := by
  induction cs generalizing a with
  | nil => simp [firstNotWs?] at h
  | cons c t ih =>
    by_cases hc : isWsChar c
    · simp only [firstNotWs?, hc, if_pos] at h
      rcases Option.map_eq_some'.mp h with ⟨a', ha', rfl⟩
      simp [hc, ih a' ha']
    · simp [firstNotWs?, hc] at h
      have ha0 : a = 0 := by omega
      subst ha0
      simp [hc]

/-- Helper: `dropWhile` drops exactly the `takeWhile` length. -/
theorem dropWhile_eq_drop_length {α : Type} (p : α → Bool) (l : List α) :
    l.dropWhile p = l.drop (l.takeWhile p).length := by
  induction l with
  | nil => rfl
  | cons c t ih =>
    by_cases hc : p c <;> simp [hc, ih]

/-- Helper: a list with an element failing `p` has a strictly shorter
`takeWhile p`. -/
theorem takeWhile_length_lt {α : Type} (p : α → Bool) (l : List α)
    (h : ∃ x ∈ l, p x = false) : (l.takeWhile p).length < l.length := by
  induction l with
  | nil => simp at h
  | cons c t ih =>
    by_cases hc : p c
    · rcases h with ⟨x, hx, hpx⟩
      rcases List.mem_cons.mp hx with rfl | hx'
      · rw [hc] at hpx; cases hpx
      · simpa [hc] using ih ⟨x, hx', hpx⟩
    · simp [hc]

/-- Helper: taking all but the reversed-side whitespace run is `rdropWhile`. -/
theorem take_sub_eq_rdropWhile (d : List Char) (j : Nat)
    (hj : j = (d.reverse.takeWhile isWsChar).length) :
    d.take (d.length - j) = List.rdropWhile isWsChar d := by
  rw [List.rdropWhile, dropWhile_eq_drop_length, ← hj,
      ← List.rdrop_eq_reverse_drop_reverse, List.rdrop]

/-- Helper: the C++ two-index trim equals `dropWhile` from the front composed
with `rdropWhile` from the back, except that all-whitespace input is returned
unchanged. -/
theorem trimWs_spec (cs : List Char) :
    trimWs cs = if ∀ c ∈ cs, isWsChar c then cs
                else List.rdropWhile isWsChar (cs.dropWhile isWsChar) := by
  by_cases hall : ∀ c ∈ cs, isWsChar c
  · have h1 : firstNotWs? cs = none := (firstNotWs_eq_none_iff cs).mpr hall
    simp [trimWs, h1]
    rw [if_pos hall]
  · have hex : ∃ x ∈ cs, isWsChar x = false := by
      push_neg at hall
      rcases hall with ⟨x, hx, hpx⟩
      exact ⟨x, hx, by simpa using hpx⟩
    have hall' : ¬ ∀ c ∈ cs, isWsChar c := by
      rcases hex with ⟨x, hx, hpx⟩
      intro hcon
      rw [hcon x hx] at hpx
      cases hpx
    have h1 : firstNotWs? cs ≠ none := by
      rw [Ne, firstNotWs_eq_none_iff]
      exact hall'
    rcases ho : firstNotWs? cs with _ | a
    · exact absurd ho h1
    have hexr : ∃ x ∈ cs.reverse, isWsChar x = false := by
      rcases hex with ⟨x, hx, hpx⟩
      exact ⟨x, List.mem_reverse.mpr hx, hpx⟩
    have h1r : firstNotWs? cs.reverse ≠ none := by
      rw [Ne, firstNotWs_eq_none_iff]
      rcases hexr with ⟨x, hx, hpx⟩
      intro hcon
      rw [hcon x hx] at hpx
      cases hpx
    rcases hor : firstNotWs? cs.reverse with _ | i
    · exact absurd hor h1r
    have ha : a = (cs.takeWhile isWsChar).length := firstNotWs_eq_takeWhile_length cs a ho
    have hdrop : cs.drop a = cs.dropWhile isWsChar := drop_firstNotWs_eq_dropWhile cs a ho
    have hi : i = (cs.reverse.takeWhile isWsChar).length :=
      firstNotWs_eq_takeWhile_length cs.reverse i hor
    have hsplit : cs.takeWhile isWsChar ++ cs.dropWhile isWsChar = cs :=
      List.takeWhile_append_dropWhile isWsChar cs
    have hexd : ∃ x ∈ (cs.dropWhile isWsChar).reverse, isWsChar x = false := by
      rcases hex with ⟨x, hx, hpx⟩
      rw [← hsplit] at hx
      rcases List.mem_append.mp hx with hx' | hx'
      · exact absurd (List.mem_takeWhile_imp hx') (by simp [hpx])
      · exact ⟨x, List.mem_reverse.mpr hx', hpx⟩
    have hrev : cs.reverse = (cs.dropWhile isWsChar).reverse ++ (cs.takeWhile isWsChar).reverse := by
      rw [← List.reverse_append, hsplit]
    have htw : cs.reverse.takeWhile isWsChar
        = (cs.dropWhile isWsChar).reverse.takeWhile isWsChar := by
      rw [hrev, List.takeWhile_append]
      have hlt : ((cs.dropWhile isWsChar).reverse.takeWhile isWsChar).length
          < (cs.dropWhile isWsChar).reverse.length :=
        takeWhile_length_lt isWsChar _ hexd
      rw [if_neg (by omega)]
    have hilt : i < (cs.dropWhile isWsChar).length := by
      have hlt2 := takeWhile_length_lt isWsChar (cs.dropWhile isWsChar).reverse hexd
      rw [hi, htw]
      simpa using hlt2
    have hlen : cs.length = a + (cs.dropWhile isWsChar).length := by
      rw [ha, ← List.length_append, hsplit]
    rw [trimWs, lastNotWs?, ho, hor]
    simp only [Option.map_some']
    rw [if_neg hall, hdrop]
    have harith : cs.length - 1 - i - a + 1 = (cs.dropWhile isWsChar).length - i := by
      omega
    rw [harith]
    exact take_sub_eq_rdropWhile (cs.dropWhile isWsChar) i (by rw [hi, htw])

/-- Claim C5 counterexample: on an input whose fenced block holds no valid
JSON, extraction returns the trimmed *fence contents*, not the
whitespace-trimmed original input. -/
theorem c5_fallback_counterexample :
    braceExtract? (fenceCandidate fencedNonJsonInput.data) = none ∧
    extractJsonFromResponse fencedNonJsonInput = "not json" ∧
    extractJsonFromResponse fencedNonJsonInput
      ≠ String.mk (trimWs fencedNonJsonInput.data) := by
  decide

/-- Claim C5 (amended): whenever steps 1-3 produce no valid JSON, extraction
returns the whitespace-trimmed *candidate* — the fenced block's contents when
a fence was selected, otherwise the original text — where trimming strips
leading and trailing whitespace and leaves an all-whitespace candidate
unchanged. -/
theorem c5_fallback (content : String)
    (h : braceExtract? (fenceCandidate content.data) = none) :
    extractJsonFromResponse content
      = String.mk
          (if ∀ c ∈ fenceCandidate content.data, isWsChar c then fenceCandidate content.data
           else List.rdropWhile isWsChar
                  ((fenceCandidate content.data).dropWhile isWsChar)) := by
  rw [extractJsonFromResponse]
  simp only [h]
  rw [trimWs_spec]

/-- Witness for C5: a padded plain-text input with no fence and no braces. -/
theorem c5_fallback_witness :
    extractJsonFromResponse " hi "
      = String.mk
          (if ∀ c ∈ fenceCandidate " hi ".data, isWsChar c then fenceCandidate " hi ".data
           else List.rdropWhile isWsChar ((fenceCandidate " hi ".data).dropWhile isWsChar)) :=
  c5_fallback " hi " (by decide)

/-- Claim C10: outside shutdown, invoking the blocking bridge entry point or
the async-start entry point with no argument, a null string argument, or an
empty string argument starts no request and mutates no state: the blocking
entry point returns `{"error":"No game state received"}` and the async-start
entry point returns false. -/
theorem c10_entry_arg_validation (checkAvail : Bool) (apiKey httpResponse : String)
    (st : CacheState) (keyOk : Bool) (es : EngineState) (arg : LuaArg)
    (harg : arg = LuaArg.noArg ∨ arg = LuaArg.nullStr ∨ arg = LuaArg.str "") :
    lua_SendGameStateToClaudeAPI false checkAvail arg apiKey httpResponse st
      = ("\x7b\"error\":\"No game state received\"\x7d", st, false) ∧
    lua_StartClaudeAPIRequest false checkAvail arg keyOk es = (false, es, false) := by
  rcases harg with h | h | h <;> subst h <;>
    simp [lua_SendGameStateToClaudeAPI, lua_StartClaudeAPIRequest]

/-- Witness for C10: the empty-string argument at concrete states. -/
theorem c10_entry_arg_validation_witness :
    lua_SendGameStateToClaudeAPI false true (LuaArg.str "") "k" "o" initialCache
      = ("\x7b\"error\":\"No game state received\"\x7d", initialCache, false) ∧
    lua_StartClaudeAPIRequest false true (LuaArg.str "") true initEngine
      = (false, initEngine, false) :=
  c10_entry_arg_validation true "k" "o" initialCache true initEngine
    (LuaArg.str "") (Or.inr (Or.inr rfl))
